import Mathlib

/-!
Shallow embedding of `src/pandas_questions.py`: a referendum-result pipeline
over in-memory tables.  DataFrames are modelled as lists of row structures;
missing values (NaN) as `Option`/`none`; pandas string operations on the
department-code column are modelled character-exactly.  Each pipeline stage is
a Lean function on these lists; for the mutation (frame) analysis each stage
additionally has a `..._after` function giving the state of its arguments
after the call (explicit state passing for pandas' in-place column writes).
-/

/-- A pandas cell whose dtype may be int or str (used for `Town code`, which
`compute_referendum_result_by_regions` converts in place via `astype(str)`);
`vNull` models NaN. -/
inductive CellVal where
  | vInt : Int → CellVal
  | vStr : String → CellVal
  | vNull : CellVal
  deriving DecidableEq

/-- Row of `regions.csv`: columns `code`, `name`. -/
structure RegionRow where
  code : String
  name : String
  deriving DecidableEq

/-- Row of `departments.csv`: columns `region_code`, `code`, `name`. -/
structure DepartmentRow where
  region_code : String
  code : String
  name : String
  deriving DecidableEq

/-- Row of the AreaLookup table produced by `merge_regions_and_departments`:
columns `code_reg`, `name_reg`, `code_dep`, `name_dep`. -/
structure AreaRow where
  code_reg : String
  name_reg : String
  code_dep : String
  name_dep : String
  deriving DecidableEq

/-- Row of `referendum.csv` (a BallotRecord).  `Department code` is a string
column that may hold NaN, hence `Option String`; the five count columns are
non-negative integers per the data model. -/
structure BallotRow where
  dept_code : Option String
  town_code : CellVal
  registered : Nat
  abstentions : Nat
  nulls : Nat
  choiceA : Nat
  choiceB : Nat
  deriving DecidableEq

/-- Row of the JoinedBallot table produced by `merge_referendum_and_areas`:
all BallotRecord columns plus the four AreaLookup columns.  pandas keeps both
join-key columns (`Department code` and `code_dep`); after a left join the
four area columns are NaN on unmatched rows, hence `Option`. -/
structure JoinedRow where
  dept_code : Option String
  town_code : CellVal
  registered : Nat
  abstentions : Nat
  nulls : Nat
  choiceA : Nat
  choiceB : Nat
  code_reg : Option String
  name_reg : Option String
  code_dep : Option String
  name_dep : Option String
  deriving DecidableEq

/-- Row of the RegionResult table produced by
`compute_referendum_result_by_regions`, keyed by `code_reg`.  `name_reg` is
the group's `"first"` aggregate, which in pandas is the first non-null value
(hence `Option`, `none` for an all-null group). -/
structure ResultRow where
  code_reg : String
  name_reg : Option String
  registered : Nat
  abstentions : Nat
  nulls : Nat
  choiceA : Nat
  choiceB : Nat
  deriving DecidableEq

/-- Row of `regions.geojson` after the rename `code` → `code_reg`; the
geometry payload is opaque to the pipeline. -/
structure GeoRow where
  code_reg : String
  geometry : String
  deriving DecidableEq

/-- Row of the final map table returned by `plot_referendum_map`: the inner
join of geometry with RegionResult plus the derived `ratio` column.  pandas
evaluates `Choice A / (Choice A + Choice B)` in floating point where `0/0`
is NaN; the counts are integers, so the value is the rational
`a / (a + b)` when the denominator is non-zero and NaN (`none`) otherwise. -/
structure MapRow where
  code_reg : String
  geometry : String
  name_reg : Option String
  registered : Nat
  abstentions : Nat
  nulls : Nat
  choiceA : Nat
  choiceB : Nat
  ratio : Option ℚ
  deriving DecidableEq

/-! ### String primitives used on the department-code column -/

/-- The whitespace characters stripped by Python's `str.strip()` (ASCII
range, matching the data's encoding). -/
def isWs (c : Char) : Bool :=
  c = ' ' || c = '\t' || c = '\n' || c = '\r' || c = '\x0b' || c = '\x0c'

/-- Drop trailing whitespace characters. -/
def rstripWs (l : List Char) : List Char :=
  (l.reverse.dropWhile isWs).reverse

/-- Drop leading and trailing whitespace characters, as `str.strip()`. -/
def stripWs (l : List Char) : List Char :=
  (rstripWs l).dropWhile isWs

/-- The pandas `.str.strip()` column operation. -/
def stripS (s : String) : String :=
  ⟨stripWs s.data⟩

/-- `fullmatch(r"\d+")`: a non-empty all-digit string. -/
def fullmatchDigits (s : String) : Bool :=
  !s.data.isEmpty && s.data.all Char.isDigit

/-- `fullmatch(r"\d{3}")`: exactly three digits. -/
def fullmatchThreeDigits (s : String) : Bool :=
  s.data.length == 3 && s.data.all Char.isDigit

/-- `.str.lstrip("0")`: drop leading zero characters. -/
def lstripZeros (s : String) : String :=
  ⟨s.data.dropWhile (· = '0')⟩

/-- `.str.contains("Z", na=False)` on the `Department code` column: NaN
counts as not containing. -/
def containsZ : Option String → Bool
  | none => false
  | some s => s.data.any (· = 'Z')

/-! ### Pipeline stage 1: `merge_regions_and_departments` -/

/-- `pd.merge(df_dep, df_reg, left_on="region_code", right_on="code",
suffixes=("_dep", "_reg"))` projected to
`["code_reg", "name_reg", "code_dep", "name_dep"]`: an inner join, in
left-frame order, each department row paired with every region row whose
`code` equals its `region_code`. -/
def merge_regions_and_departments (df_reg : List RegionRow)
    (df_dep : List DepartmentRow) : List AreaRow :=
  df_dep.flatMap (fun d =>
    (df_reg.filter (fun r => r.code = d.region_code)).map (fun r =>
      { code_reg := r.code, name_reg := r.name
        code_dep := d.code, name_dep := d.name }))

/-- `merge_regions_and_departments` contains no in-place operation: both
arguments are as before the call. -/
def merge_regions_and_departments_after (df_reg : List RegionRow)
    (df_dep : List DepartmentRow) : List RegionRow × List DepartmentRow :=
  (df_reg, df_dep)

/-! ### Pipeline stage 2: `merge_referendum_and_areas` -/

/-- Lines 59-64 of the source: with `s` the stripped `code_dep` column, keep
the rows where `s` does not fullmatch `\d{3}`, and replace `code_dep` by
`s.where(~s.str.fullmatch(r"\d+"), s.str.lstrip("0"))`, i.e. the stripped
code, with leading zeros dropped when it is all digits. -/
def normalizeCode (s : String) : String :=
  let t := stripS s
  if fullmatchDigits t then lstripZeros t else t

/-- The filtered and normalized AreaLookup table used as the right frame of
the join in `merge_referendum_and_areas`. -/
def normalizedAreas (areas : List AreaRow) : List AreaRow :=
  (areas.filter (fun a => !fullmatchThreeDigits (stripS a.code_dep))).map
    (fun a => { a with code_dep := normalizeCode a.code_dep })

/-- Output row for a ballot matched with an area row. -/
def joinedOfMatch (r : BallotRow) (a : AreaRow) : JoinedRow :=
  { dept_code := r.dept_code, town_code := r.town_code
    registered := r.registered, abstentions := r.abstentions
    nulls := r.nulls, choiceA := r.choiceA, choiceB := r.choiceB
    code_reg := some a.code_reg, name_reg := some a.name_reg
    code_dep := some a.code_dep, name_dep := some a.name_dep }

/-- Output row for a ballot with no matching area row: the left join keeps
it with NaN in the four area columns. -/
def joinedOfNoMatch (r : BallotRow) : JoinedRow :=
  { dept_code := r.dept_code, town_code := r.town_code
    registered := r.registered, abstentions := r.abstentions
    nulls := r.nulls, choiceA := r.choiceA, choiceB := r.choiceB
    code_reg := none, name_reg := none, code_dep := none, name_dep := none }

/-- Lines 56-68 of the source: drop ballot rows whose `Department code`
contains `"Z"` (NaN tolerated via `na=False`), filter and normalize the area
table, then left-join on `Department code = code_dep`.  A NaN ballot key
matches nothing (the normalized right keys are all strings). -/
def merge_referendum_and_areas (referendum : List BallotRow)
    (areas : List AreaRow) : List JoinedRow :=
  let ref := referendum.filter (fun r => !containsZ r.dept_code)
  let ar := normalizedAreas areas
  ref.flatMap (fun r =>
    let ms := ar.filter (fun a => r.dept_code = some a.code_dep)
    if ms.isEmpty then [joinedOfNoMatch r] else ms.map (joinedOfMatch r))

/-- `merge_referendum_and_areas` only rebinds local names (boolean-mask
selection, `assign` and `merge` all build new frames): both arguments are as
before the call. -/
def merge_referendum_and_areas_after (referendum : List BallotRow)
    (areas : List AreaRow) : List BallotRow × List AreaRow :=
  (referendum, areas)

/-! ### Pipeline stage 3: `compute_referendum_result_by_regions` -/

/-- `astype(str)` on a cell: ints print in decimal, NaN becomes `"nan"`. -/
def astypeStr : CellVal → CellVal
  | .vInt n => .vStr (toString n)
  | .vStr s => .vStr s
  | .vNull => .vStr "nan"

/-- Line 81-83 of the source: the in-place column write
`referendum_and_areas["Town code"] = referendum_and_areas["Town code"].astype(str)`
applied to the whole frame. -/
def townCast (df : List JoinedRow) : List JoinedRow :=
  df.map (fun r => { r with town_code := astypeStr r.town_code })

/-- The rows of `df` in group `k` of `groupby("code_reg")`. -/
def regionGroup (df : List JoinedRow) (k : String) : List JoinedRow :=
  df.filter (fun r => r.code_reg = some k)

/-- The `.agg` dictionary of lines 88-95 applied to one group `g` with key
`k`: `"first"` on `name_reg` (first non-null value of the group) and `"sum"`
on the five count columns. -/
def aggRow (g : List JoinedRow) (k : String) : ResultRow :=
  { code_reg := k
    name_reg := (g.filterMap (fun r => r.name_reg)).head?
    registered := (g.map (fun r => r.registered)).sum
    abstentions := (g.map (fun r => r.abstentions)).sum
    nulls := (g.map (fun r => r.nulls)).sum
    choiceA := (g.map (fun r => r.choiceA)).sum
    choiceB := (g.map (fun r => r.choiceB)).sum }

/-- Lines 85-96 of the source: group the (town-cast) frame by `code_reg`
and aggregate each group with `aggRow`.  `groupby` drops rows whose key is
NaN; pandas emits groups in sorted key order, which none of the stated
properties depend on — keys are taken here in first-occurrence order. -/
def compute_referendum_result_by_regions (df : List JoinedRow) :
    List ResultRow :=
  let d := townCast df
  ((d.filterMap (fun r => r.code_reg)).dedup).map (fun k =>
    aggRow (regionGroup d k) k)

/-- The state of the argument after `compute_referendum_result_by_regions`:
the `Town code` column write on line 81 mutates the caller's frame. -/
def compute_referendum_result_by_regions_after (df : List JoinedRow) :
    List JoinedRow :=
  townCast df

/-! ### Pipeline stage 4: `plot_referendum_map` -/

/-- The `ratio` column expression `Choice A / (Choice A + Choice B)` on
integer counts: pandas float division yields NaN (not an error, not 0 or 1)
when the denominator — and hence the numerator — is zero. -/
def ratioOf (a b : Nat) : Option ℚ :=
  if a + b = 0 then none else some ((a : ℚ) / ((a : ℚ) + (b : ℚ)))

/-- Lines 108-117 of the source with the contents of `regions.geojson`
passed explicitly: rename `code` → `code_reg` is already reflected in
`GeoRow`; inner-join geometry with the results on `code_reg`; append the
`ratio` column.  Plotting is display-only and the frame is returned. -/
def plot_referendum_map (gdf : List GeoRow) (res : List ResultRow) :
    List MapRow :=
  gdf.flatMap (fun g =>
    (res.filter (fun t => t.code_reg = g.code_reg)).map (fun t =>
      { code_reg := g.code_reg, geometry := g.geometry
        name_reg := t.name_reg, registered := t.registered
        abstentions := t.abstentions, nulls := t.nulls
        choiceA := t.choiceA, choiceB := t.choiceB
        ratio := ratioOf t.choiceA t.choiceB }))

/-- `plot_referendum_map` writes the `ratio` column into the freshly merged
frame, not into its argument: the argument is as before the call. -/
def plot_referendum_map_after (res : List ResultRow) : List ResultRow :=
  res

/-! ### Helper lemmas on the shape of the join output -/

/-- Every output row of the ballot/area join comes from a surviving (no-`Z`)
ballot row, either unmatched or matched with a normalized area row. -/
lemma mem_merge_referendum_and_areas {referendum : List BallotRow}
    {areas : List AreaRow} {j : JoinedRow}
    (hj : j ∈ merge_referendum_and_areas referendum areas) :
    ∃ r ∈ referendum, containsZ r.dept_code = false ∧
      (j = joinedOfNoMatch r ∨
        ∃ a ∈ normalizedAreas areas,
          r.dept_code = some a.code_dep ∧ j = joinedOfMatch r a) := by
  unfold merge_referendum_and_areas at hj
  simp only [List.mem_flatMap] at hj
  obtain ⟨r, hr, hjr⟩ := hj
  rw [List.mem_filter] at hr
  refine ⟨r, hr.1, by simpa using hr.2, ?_⟩
  by_cases hms :
      ((normalizedAreas areas).filter
        (fun a => r.dept_code = some a.code_dep)).isEmpty
  · rw [if_pos hms, List.mem_singleton] at hjr
    exact Or.inl hjr
  · rw [if_neg hms, List.mem_map] at hjr
    obtain ⟨a, ha, hja⟩ := hjr
    rw [List.mem_filter] at ha
    exact Or.inr ⟨a, ha.1, by simpa using ha.2, hja.symm⟩

/-- A surviving ballot row that matches no normalized area row appears in
the output as its unmatched (all-area-columns-null) version. -/
lemma noMatch_mem_merge {referendum : List BallotRow} {areas : List AreaRow}
    {r : BallotRow} (hr : r ∈ referendum)
    (hz : containsZ r.dept_code = false)
    (hnm : ∀ a ∈ normalizedAreas areas, r.dept_code ≠ some a.code_dep) :
    joinedOfNoMatch r ∈ merge_referendum_and_areas referendum areas := by
  unfold merge_referendum_and_areas
  rw [List.mem_flatMap]
  refine ⟨r, List.mem_filter.mpr ⟨hr, by simp [hz]⟩, ?_⟩
  have hms : ((normalizedAreas areas).filter
      (fun a => r.dept_code = some a.code_dep)) = [] :=
    List.filter_eq_nil_iff.mpr (fun a ha => by simpa using hnm a ha)
  simp [hms]

/-- Every output row of the geometry/result join pairs a geometry row with a
result row sharing its region code, and carries the derived ratio. -/
lemma mem_plot_referendum_map {gdf : List GeoRow} {res : List ResultRow}
    {m : MapRow} (hm : m ∈ plot_referendum_map gdf res) :
    ∃ g ∈ gdf, ∃ t ∈ res, t.code_reg = g.code_reg ∧
      m = { code_reg := g.code_reg, geometry := g.geometry
            name_reg := t.name_reg, registered := t.registered
            abstentions := t.abstentions, nulls := t.nulls
            choiceA := t.choiceA, choiceB := t.choiceB
            ratio := ratioOf t.choiceA t.choiceB } := by
  unfold plot_referendum_map at hm
  simp only [List.mem_flatMap, List.mem_map] at hm
  obtain ⟨g, hg, t, ht, hmt⟩ := hm
  rw [List.mem_filter] at ht
  exact ⟨g, hg, t, ht.1, by simpa using ht.2, hmt.symm⟩

/-! ### Claim theorems -/

/-- C4: no row whose original department code contains the character `Z`
(case-sensitively) appears in the joined output, and a ballot row whose
department code is missing is not excluded by this rule (with no matching
area it still appears, as its unmatched version). -/
theorem C4_territory_exclusion (referendum : List BallotRow)
    (areas : List AreaRow) :
    (∀ j ∈ merge_referendum_and_areas referendum areas,
      ∀ s, j.dept_code = some s → s.data.any (· = 'Z') = false) ∧
    (∀ r ∈ referendum, r.dept_code = none →
      joinedOfNoMatch r ∈ merge_referendum_and_areas referendum areas) := by
  constructor
  · intro j hj s hs
    obtain ⟨r, _, hz, hcase⟩ := mem_merge_referendum_and_areas hj
    have hdept : j.dept_code = r.dept_code := by
      rcases hcase with h | ⟨a, _, _, h⟩ <;> simp [h, joinedOfNoMatch, joinedOfMatch]
    rw [hdept] at hs
    rw [hs] at hz
    simpa [containsZ] using hz
  · intro r hr hnone
    refine noMatch_mem_merge hr (by simp [containsZ, hnone]) ?_
    intro a _ h
    rw [hnone] at h
    exact Option.noConfusion h

/-- Witness for C4 at a concrete input: a ballot row with a missing
department code survives into the join output. -/
theorem C4_territory_exclusion_witness :
    joinedOfNoMatch
        { dept_code := none, town_code := .vInt 7, registered := 10
          abstentions := 1, nulls := 2, choiceA := 4, choiceB := 3 } ∈
      merge_referendum_and_areas
        [{ dept_code := none, town_code := .vInt 7, registered := 10
           abstentions := 1, nulls := 2, choiceA := 4, choiceB := 3 }]
        [{ code_reg := "1", name_reg := "R", code_dep := "07",
           name_dep := "D" }] :=
  (C4_territory_exclusion _ _).2 _ (List.mem_singleton.mpr rfl) rfl

/-- C7: the ballot/area join is a left join: a surviving ballot row whose
department code matches no normalized area row still appears in the output,
with null in the four area columns. -/
theorem C7_left_join_keeps_unmatched (referendum : List BallotRow)
    (areas : List AreaRow) (r : BallotRow) (hr : r ∈ referendum)
    (hz : containsZ r.dept_code = false)
    (hnm : ∀ a ∈ normalizedAreas areas, r.dept_code ≠ some a.code_dep) :
    joinedOfNoMatch r ∈ merge_referendum_and_areas referendum areas ∧
    (joinedOfNoMatch r).code_reg = none ∧
    (joinedOfNoMatch r).name_reg = none ∧
    (joinedOfNoMatch r).code_dep = none ∧
    (joinedOfNoMatch r).name_dep = none :=
  ⟨noMatch_mem_merge hr hz hnm, rfl, rfl, rfl, rfl⟩

/-- Witness for C7 at a concrete input: department code `"99"` matches no
area row (the only area code normalizes to `"7"`), yet the row survives. -/
theorem C7_left_join_keeps_unmatched_witness :
    joinedOfNoMatch
        { dept_code := some "99", town_code := .vStr "t", registered := 5
          abstentions := 1, nulls := 0, choiceA := 2, choiceB := 2 } ∈
      merge_referendum_and_areas
        [{ dept_code := some "99", town_code := .vStr "t", registered := 5
           abstentions := 1, nulls := 0, choiceA := 2, choiceB := 2 }]
        [{ code_reg := "1", name_reg := "R", code_dep := "07",
           name_dep := "D" }] :=
  (C7_left_join_keeps_unmatched _ _ _ (List.mem_singleton.mpr rfl)
    (by decide) (by decide)).1

/-- C6: in the map table, a region with zero counts for both choices gets an
explicit NaN ratio (`none`): the total ratio function neither fails nor
coerces the undefined value to 0 or 1. -/
theorem C6_zero_denominator_ratio (gdf : List GeoRow) (res : List ResultRow)
    (m : MapRow) (hm : m ∈ plot_referendum_map gdf res)
    (hA : m.choiceA = 0) (hB : m.choiceB = 0) :
    m.ratio = none := by
  obtain ⟨g, _, t, _, _, hmt⟩ := mem_plot_referendum_map hm
  have hA' : t.choiceA = 0 := by rw [hmt] at hA; simpa using hA
  have hB' : t.choiceB = 0 := by rw [hmt] at hB; simpa using hB
  rw [hmt]
  simp [ratioOf, hA', hB']

/-- Witness for C6 at a concrete input: both choice counts zero yields a
`none` ratio in the map table. -/
theorem C6_zero_denominator_ratio_witness :
    ({ code_reg := "1", geometry := "poly", name_reg := some "R"
       registered := 3, abstentions := 2, nulls := 1, choiceA := 0
       choiceB := 0, ratio := ratioOf 0 0 } : MapRow).ratio = none :=
  C6_zero_denominator_ratio
    [{ code_reg := "1", geometry := "poly" }]
    [{ code_reg := "1", name_reg := some "R", registered := 3
       abstentions := 2, nulls := 1, choiceA := 0, choiceB := 0 }]
    _ (List.mem_singleton.mpr rfl) rfl rfl

/-- C9: every defined ratio in the map table lies between 0 and 1: the
counts are non-negative integers and the numerator is a summand of the
denominator. -/
theorem C9_ratio_bounds (gdf : List GeoRow) (res : List ResultRow)
    (m : MapRow) (hm : m ∈ plot_referendum_map gdf res)
    (q : ℚ) (hq : m.ratio = some q) :
    0 ≤ q ∧ q ≤ 1 := by
  obtain ⟨g, _, t, _, _, hmt⟩ := mem_plot_referendum_map hm
  rw [hmt] at hq
  simp only [ratioOf] at hq
  by_cases h0 : t.choiceA + t.choiceB = 0
  · rw [if_pos h0] at hq; exact absurd hq (by simp)
  · rw [if_neg h0] at hq
    have hq' : q = (t.choiceA : ℚ) / ((t.choiceA : ℚ) + (t.choiceB : ℚ)) := by
      exact (Option.some.injEq _ _ ▸ hq).symm
    have hpos : (0:ℚ) < (t.choiceA : ℚ) + (t.choiceB : ℚ) := by
      have h1 : 0 < t.choiceA + t.choiceB := Nat.pos_of_ne_zero h0
      exact_mod_cast h1
    constructor
    · rw [hq']
      exact div_nonneg (by positivity) (le_of_lt hpos)
    · rw [hq', div_le_one hpos]
      have : (0:ℚ) ≤ (t.choiceB : ℚ) := by positivity
      linarith

/-- Witness for C9 at a concrete input: one vote for each choice gives a
ratio of one half, which lies between 0 and 1. -/
theorem C9_ratio_bounds_witness :
    0 ≤ ((1:ℚ) / ((1:ℚ) + (1:ℚ))) ∧ ((1:ℚ) / ((1:ℚ) + (1:ℚ))) ≤ 1 :=
  C9_ratio_bounds
    [{ code_reg := "1", geometry := "poly" }]
    [{ code_reg := "1", name_reg := some "R", registered := 3
       abstentions := 1, nulls := 0, choiceA := 1, choiceB := 1 }]
    _ (List.mem_singleton.mpr rfl) _ (by norm_num [ratioOf])

/-- C10: an area department code that strips to a non-empty all-zero string
of fewer than three digits normalizes to the empty string; the row is
retained in the normalized lookup table, and — since no real ballot
department code is the empty string — no output row of the join carries an
empty matched `code_dep`. -/
theorem C10_all_zero_code (areas : List AreaRow) (referendum : List BallotRow)
    (a : AreaRow) (ha : a ∈ areas)
    (hne : (stripS a.code_dep).data ≠ [])
    (h0 : (stripS a.code_dep).data.all (· = '0') = true)
    (hlen : (stripS a.code_dep).data.length < 3) :
    normalizeCode a.code_dep = "" ∧
    { a with code_dep := "" } ∈ normalizedAreas areas ∧
    ((∀ r ∈ referendum, r.dept_code ≠ some "") →
      ∀ j ∈ merge_referendum_and_areas referendum areas,
        j.code_dep ≠ some "") := by
  have hdig : (stripS a.code_dep).data.all Char.isDigit = true := by
    rw [List.all_eq_true] at h0 ⊢
    intro c hc
    have := h0 c hc
    simp only [decide_eq_true_eq] at this
    simp [this]
  have hfull : fullmatchDigits (stripS a.code_dep) = true := by
    unfold fullmatchDigits
    rw [Bool.and_eq_true]
    exact ⟨by simpa [List.isEmpty_iff] using hne, hdig⟩
  have hnorm : normalizeCode a.code_dep = "" := by
    unfold normalizeCode
    rw [if_pos hfull]
    unfold lstripZeros
    have : (stripS a.code_dep).data.dropWhile (· = '0') = [] :=
      List.dropWhile_eq_nil_iff.mpr (by
        intro x hx
        exact List.all_eq_true.mp h0 x hx)
    rw [this]
  have hthree : fullmatchThreeDigits (stripS a.code_dep) = false := by
    unfold fullmatchThreeDigits
    rw [Bool.and_eq_false_iff]
    left
    simpa using Nat.ne_of_lt hlen
  refine ⟨hnorm, ?_, ?_⟩
  · unfold normalizedAreas
    rw [List.mem_map]
    refine ⟨a, List.mem_filter.mpr ⟨ha, by simp [hthree]⟩, ?_⟩
    rw [hnorm]
  · intro hball j hj hje
    obtain ⟨r, hr, _, hcase⟩ := mem_merge_referendum_and_areas hj
    rcases hcase with h | ⟨b, _, hmatch, h⟩
    · rw [h] at hje
      exact Option.noConfusion hje
    · rw [h] at hje
      simp only [joinedOfMatch, Option.some.injEq] at hje
      apply hball r hr
      rw [hmatch, hje]

/-- Witness for C10 at a concrete input: area code `"0"` strips to itself,
normalizes to `""`, the row survives filtering, and the join against a
ballot with department code `"7"` never matches it. -/
theorem C10_all_zero_code_witness :
    normalizeCode "0" = "" ∧
    ({ code_reg := "1", name_reg := "R", code_dep := "",
       name_dep := "D" } : AreaRow) ∈
      normalizedAreas
        [{ code_reg := "1", name_reg := "R", code_dep := "0",
           name_dep := "D" }] := by
  have h := C10_all_zero_code
    [{ code_reg := "1", name_reg := "R", code_dep := "0", name_dep := "D" }]
    [{ dept_code := some "7", town_code := .vStr "t", registered := 5
       abstentions := 1, nulls := 0, choiceA := 2, choiceB := 2 }]
    { code_reg := "1", name_reg := "R", code_dep := "0", name_dep := "D" }
    (List.mem_singleton.mpr rfl) (by decide) (by decide) (by decide)
  exact ⟨h.1, h.2.1⟩

/-! ### Lemmas on the string normalization -/

lemma dropWhile_eq_self_of_all {α : Type} {p : α → Bool} {l : List α}
    (h : ∀ x ∈ l, p x = false) : l.dropWhile p = l := by
  cases l with
  | nil => rfl
  | cons a t =>
    rw [List.dropWhile_cons, if_neg (by simp [h a (List.mem_cons_self a t)])]

lemma stripWs_of_no_ws {l : List Char} (h : ∀ x ∈ l, isWs x = false) :
    stripWs l = l := by
  unfold stripWs rstripWs
  rw [dropWhile_eq_self_of_all (fun x hx => h x (List.mem_reverse.mp hx)),
    List.reverse_reverse, dropWhile_eq_self_of_all h]

lemma rstripWs_eq_self_of_clean {l : List Char}
    (h : l.reverse.dropWhile isWs = l.reverse) : rstripWs l = l := by
  unfold rstripWs
  rw [h, List.reverse_reverse]

/-- The result of dropping trailing whitespace has no trailing whitespace. -/
lemma rstripWs_trailing_clean (l : List Char) :
    (rstripWs l).reverse.dropWhile isWs = (rstripWs l).reverse := by
  unfold rstripWs
  rw [List.reverse_reverse]
  exact List.dropWhile_idempotent _ _

/-- Dropping leading elements preserves having no trailing matches. -/
lemma trailingClean_dropWhile {α : Type} (p : α → Bool) :
    ∀ l : List α, l.reverse.dropWhile p = l.reverse →
      (l.dropWhile p).reverse.dropWhile p = (l.dropWhile p).reverse := by
  intro l
  induction l with
  | nil => intro _; rfl
  | cons a t ih =>
    intro h
    by_cases hp : p a
    · rw [List.dropWhile_cons, if_pos hp]
      cases ht : t.reverse with
      | nil =>
        have ht' : t = [] := List.reverse_eq_nil_iff.mp ht
        subst ht'
        simp
      | cons b u =>
        have hb : p b = false := by
          by_contra hb'
          rw [Bool.not_eq_false] at hb'
          rw [List.reverse_cons, ht, List.cons_append] at h
          rw [List.dropWhile_cons, if_pos hb'] at h
          have hlen := congrArg List.length h
          have hle := (List.dropWhile_sublist (l := u ++ [a]) p).length_le
          simp only [List.length_cons] at hlen
          omega
        apply ih
        rw [ht, List.dropWhile_cons, if_neg (by simp [hb])]
    · rw [List.dropWhile_cons, if_neg hp]
      exact h

lemma stripWs_idem (l : List Char) : stripWs (stripWs l) = stripWs l := by
  unfold stripWs
  rw [rstripWs_eq_self_of_clean
    (trailingClean_dropWhile isWs (rstripWs l) (rstripWs_trailing_clean l)),
    List.dropWhile_idempotent]

lemma stripS_idem (s : String) : stripS (stripS s) = stripS s := by
  apply String.ext
  show stripWs (stripWs s.data) = stripWs s.data
  exact stripWs_idem s.data

lemma isDigit_isWs_false {c : Char} (h : c.isDigit = true) : isWs c = false := by
  by_contra hw
  rw [Bool.not_eq_false] at hw
  unfold isWs at hw
  simp only [Bool.or_eq_true, decide_eq_true_eq] at hw
  rcases hw with ((((h1 | h1) | h1) | h1) | h1) | h1 <;> subst h1 <;>
    exact absurd h (by decide)

lemma all_digits_dropWhile {l : List Char} (q : Char → Bool)
    (h : l.all Char.isDigit = true) :
    (l.dropWhile q).all Char.isDigit = true := by
  rw [List.all_eq_true] at h ⊢
  intro x hx
  exact h x ((List.dropWhile_sublist q).mem hx)

lemma stripS_of_digits {s : String} (h : s.data.all Char.isDigit = true) :
    stripS s = s := by
  apply String.ext
  show stripWs s.data = s.data
  exact stripWs_of_no_ws
    (fun x hx => isDigit_isWs_false (List.all_eq_true.mp h x hx))

/-- C8: the department-code normalization (strip surrounding whitespace,
strip leading zeros from all-digit codes, pass other codes through) is
idempotent. -/
theorem C8_normalization_idempotent (s : String) :
    normalizeCode (normalizeCode s) = normalizeCode s := by
  unfold normalizeCode
  by_cases hf : fullmatchDigits (stripS s)
  · rw [if_pos hf]
    have hdig_t : (stripS s).data.all Char.isDigit = true :=
      ((Bool.and_eq_true _ _).mp hf).2
    have hdig_r : (lstripZeros (stripS s)).data.all Char.isDigit = true := by
      show ((stripS s).data.dropWhile (· = '0')).all Char.isDigit = true
      exact all_digits_dropWhile _ hdig_t
    have hstrip_r : stripS (lstripZeros (stripS s)) = lstripZeros (stripS s) :=
      stripS_of_digits hdig_r
    simp only [hstrip_r]
    by_cases hr : fullmatchDigits (lstripZeros (stripS s))
    · rw [if_pos hr]
      apply String.ext
      show ((stripS s).data.dropWhile (· = '0')).dropWhile (· = '0') =
        (stripS s).data.dropWhile (· = '0')
      exact List.dropWhile_idempotent _ _
    · rw [if_neg hr]
  · rw [if_neg hf]
    simp only [stripS_idem]
    rw [if_neg hf]

/-- C2: area department codes are stripped of surrounding whitespace; rows
whose stripped code is a pure 3-digit numeric string are dropped before the
join; remaining all-digit codes lose their leading zeros; non-numeric codes
pass through (as their stripped form); and code `"07"` joins a ballot whose
department code is `"7"`. -/
theorem C2_department_code_normalization (areas : List AreaRow) :
    (∀ b, b ∈ normalizedAreas areas ↔
      ∃ a ∈ areas, fullmatchThreeDigits (stripS a.code_dep) = false ∧
        b = { a with code_dep := normalizeCode a.code_dep }) ∧
    (∀ s : String, (stripS s).data.all Char.isDigit = false →
      normalizeCode s = stripS s) ∧
    (∀ s : String, (stripS s).data ≠ [] →
      (stripS s).data.all Char.isDigit = true →
      normalizeCode s = lstripZeros (stripS s)) ∧
    normalizeCode "07" = "7" ∧
    joinedOfMatch
        { dept_code := some "7", town_code := .vStr "t", registered := 9
          abstentions := 2, nulls := 1, choiceA := 4, choiceB := 2 }
        { code_reg := "84", name_reg := "ARA", code_dep := "7",
          name_dep := "Ardeche" } ∈
      merge_referendum_and_areas
        [{ dept_code := some "7", town_code := .vStr "t", registered := 9
           abstentions := 2, nulls := 1, choiceA := 4, choiceB := 2 }]
        [{ code_reg := "84", name_reg := "ARA", code_dep := "07",
           name_dep := "Ardeche" }] := by
  refine ⟨?_, ?_, ?_, by decide, by decide⟩
  · intro b
    unfold normalizedAreas
    simp only [List.mem_map, List.mem_filter, Bool.not_eq_true']
    constructor
    · rintro ⟨a, ⟨ha, h3⟩, rfl⟩
      exact ⟨a, ha, h3, rfl⟩
    · rintro ⟨a, ha, h3, rfl⟩
      exact ⟨a, ⟨ha, h3⟩, rfl⟩
  · intro s h
    unfold normalizeCode
    rw [if_neg (by simp [fullmatchDigits, h])]
  · intro s hne hdig
    unfold normalizeCode
    rw [if_pos (by simp [fullmatchDigits, hdig, List.isEmpty_iff, hne])]

/-- Witness for C2 at a concrete input: `" 2A "` (Corsica-style code with
whitespace) is non-numeric after stripping and passes through as its
stripped form. -/
theorem C2_department_code_normalization_witness :
    normalizeCode " 2A " = stripS " 2A " :=
  (C2_department_code_normalization []).2.1 " 2A " (by decide)

/-! ### Lemmas on the aggregation -/

/-- Selector for the five summed count columns of the aggregation. -/
inductive CountCol where
  | creg
  | cabs
  | cnul
  | ca
  | cb
  deriving DecidableEq

/-- The selected count column of a JoinedBallot row. -/
def colJ : CountCol → JoinedRow → Nat
  | .creg => fun r => r.registered
  | .cabs => fun r => r.abstentions
  | .cnul => fun r => r.nulls
  | .ca => fun r => r.choiceA
  | .cb => fun r => r.choiceB

/-- The selected count column of a RegionResult row. -/
def colR : CountCol → ResultRow → Nat
  | .creg => fun t => t.registered
  | .cabs => fun t => t.abstentions
  | .cnul => fun t => t.nulls
  | .ca => fun t => t.choiceA
  | .cb => fun t => t.choiceB

lemma colR_aggRow (c : CountCol) (g : List JoinedRow) (k : String) :
    colR c (aggRow g k) = (g.map (colJ c)).sum := by
  cases c <;> rfl

lemma colJ_townCast_cell (c : CountCol) (r : JoinedRow) :
    colJ c { r with town_code := astypeStr r.town_code } = colJ c r := by
  cases c <;> rfl

lemma sum_map_add {α : Type} (f g : α → ℕ) :
    ∀ l : List α, (l.map (fun x => f x + g x)).sum = (l.map f).sum + (l.map g).sum := by
  intro l
  induction l with
  | nil => rfl
  | cons a t ih =>
    simp only [List.map_cons, List.sum_cons, ih]
    omega

lemma sum_map_ite (c : Nat) :
    ∀ ks : List String, ks.Nodup → ∀ k0, k0 ∈ ks →
      (ks.map (fun k => if k0 = k then c else 0)).sum = c := by
  intro ks
  induction ks with
  | nil => intro _ k0 h; cases h
  | cons a t ih =>
    intro hnd k0 hk0
    rw [List.map_cons, List.sum_cons]
    by_cases he : k0 = a
    · subst he
      rw [if_pos rfl]
      have hnot : k0 ∉ t := (List.nodup_cons.mp hnd).1
      have hz : (t.map (fun k => if k0 = k then c else 0)).sum = 0 := by
        apply List.sum_eq_zero
        intro x hx
        rw [List.mem_map] at hx
        obtain ⟨k, hk, hkx⟩ := hx
        have hne : ¬k0 = k := fun h => hnot (by rw [h]; exact hk)
        rw [if_neg hne] at hkx
        exact hkx.symm
      rw [hz]
      omega
    · rw [if_neg he,
        ih (List.nodup_cons.mp hnd).2 k0 (List.mem_of_ne_of_mem he hk0)]
      omega

/-- Conservation of a count column under grouping: summing the per-group
sums over a duplicate-free key list covering all keys equals summing the
column over all rows whose key is non-null. -/
lemma sum_partition (col : JoinedRow → Nat) (ks : List String)
    (hnd : ks.Nodup) :
    ∀ df : List JoinedRow,
      (∀ r ∈ df, ∀ k, r.code_reg = some k → k ∈ ks) →
      (ks.map (fun k => ((regionGroup df k).map col).sum)).sum
        = ((df.filter (fun r => r.code_reg.isSome)).map col).sum := by
  intro df
  induction df with
  | nil =>
    intro _
    simp [regionGroup]
  | cons r t ih =>
    intro hcov
    have hcov' : ∀ x ∈ t, ∀ k, x.code_reg = some k → k ∈ ks :=
      fun x hx => hcov x (List.mem_cons_of_mem r hx)
    have hsplit : ∀ k, ((regionGroup (r :: t) k).map col).sum
        = (if r.code_reg = some k then col r else 0)
          + ((regionGroup t k).map col).sum := by
      intro k
      rw [regionGroup, List.filter_cons]
      by_cases hc : r.code_reg = some k
      · rw [if_pos (by simp [hc]), if_pos hc, List.map_cons, List.sum_cons]
        rfl
      · rw [if_neg (by simp [hc]), if_neg hc, Nat.zero_add]
        rfl
    rw [List.map_congr_left (fun k _ => hsplit k), sum_map_add, ih hcov']
    rw [List.filter_cons]
    cases hr : r.code_reg with
    | none =>
      have hz : (ks.map
          (fun k => if (none : Option String) = some k then col r else 0)).sum
          = 0 := by
        apply List.sum_eq_zero
        intro x hx
        rw [List.mem_map] at hx
        obtain ⟨k, _, hkx⟩ := hx
        rw [if_neg (by simp)] at hkx
        exact hkx.symm
      rw [hz, if_neg (by simp), Nat.zero_add]
    | some k0 =>
      have hmem : k0 ∈ ks := hcov r (List.mem_cons_self r t) k0 hr
      have hcond : (ks.map
          (fun k => if (some k0 : Option String) = some k then col r else 0))
          = ks.map (fun k => if k0 = k then col r else 0) :=
        List.map_congr_left (fun k _ => by simp)
      rw [hcond, sum_map_ite (col r) ks hnd k0 hmem, if_pos (by simp),
        List.map_cons, List.sum_cons]

/-- C1: conservation of totals under grouping — each of the five count
columns summed over all RegionResult rows equals that column summed over
the JoinedBallot rows whose region code is non-null. -/
theorem C1_sum_conservation (df : List JoinedRow) (c : CountCol) :
    ((compute_referendum_result_by_regions df).map (colR c)).sum
      = ((df.filter (fun r => r.code_reg.isSome)).map (colJ c)).sum := by
  have hcov : ∀ r ∈ townCast df, ∀ k, r.code_reg = some k →
      k ∈ ((townCast df).filterMap (fun r => r.code_reg)).dedup :=
    fun r hr k hk => List.mem_dedup.mpr (List.mem_filterMap.mpr ⟨r, hr, hk⟩)
  have h1 : (compute_referendum_result_by_regions df).map (colR c)
      = ((townCast df).filterMap (fun r => r.code_reg)).dedup.map
          (fun k => ((regionGroup (townCast df) k).map (colJ c)).sum) := by
    simp only [compute_referendum_result_by_regions, List.map_map]
    exact List.map_congr_left (fun k _ => colR_aggRow c _ k)
  rw [h1,
    sum_partition (colJ c) _ (List.nodup_dedup _) (townCast df) hcov]
  rw [townCast, List.filter_map, List.map_map]
  exact congrArg List.sum
    (List.map_congr_left (fun r _ => colJ_townCast_cell c r))

lemma filterMap_code_filter_isSome (l : List JoinedRow) :
    (l.filter (fun r => r.code_reg.isSome)).filterMap (fun r => r.code_reg)
      = l.filterMap (fun r => r.code_reg) := by
  induction l with
  | nil => rfl
  | cons r t ih =>
    cases hr : r.code_reg <;>
      simp [List.filter_cons, List.filterMap_cons, hr, ih]

lemma townCast_filter_isSome (df : List JoinedRow) :
    townCast (df.filter (fun r => r.code_reg.isSome))
      = (townCast df).filter (fun r => r.code_reg.isSome) := by
  rw [townCast, townCast, List.filter_map]
  rfl

lemma regionGroup_filter_isSome (l : List JoinedRow) (k : String) :
    regionGroup (l.filter (fun r => r.code_reg.isSome)) k = regionGroup l k := by
  unfold regionGroup
  rw [List.filter_filter]
  apply List.filter_congr
  intro r _
  by_cases hc : r.code_reg = some k
  · simp [hc]
  · simp [hc]

/-- C5: `groupby` drops every row whose region code is null — removing those
rows first does not change the result — and the result has exactly one row
per distinct non-null region code of the input, keyed by that code. -/
theorem C5_null_region_rows_dropped (df : List JoinedRow) :
    compute_referendum_result_by_regions
        (df.filter (fun r => r.code_reg.isSome))
        = compute_referendum_result_by_regions df ∧
    (compute_referendum_result_by_regions df).map (fun t => t.code_reg)
        = (df.filterMap (fun r => r.code_reg)).dedup ∧
    ((compute_referendum_result_by_regions df).map
      (fun t => t.code_reg)).Nodup ∧
    (∀ k, k ∈ (compute_referendum_result_by_regions df).map
        (fun t => t.code_reg)
      ↔ some k ∈ df.map (fun r => r.code_reg)) := by
  have hkeys : ∀ d : List JoinedRow,
      (compute_referendum_result_by_regions d).map (fun t => t.code_reg)
        = (d.filterMap (fun r => r.code_reg)).dedup := by
    intro d
    simp only [compute_referendum_result_by_regions, List.map_map]
    have hcomp : ((fun t : ResultRow => t.code_reg) ∘
        fun k => aggRow (regionGroup (townCast d) k) k) = id := rfl
    rw [hcomp, List.map_id]
    refine congrArg List.dedup ?_
    rw [townCast, List.filterMap_map]
    rfl
  refine ⟨?_, hkeys df, ?_, ?_⟩
  · simp only [compute_referendum_result_by_regions]
    rw [townCast_filter_isSome df, filterMap_code_filter_isSome (townCast df)]
    apply List.map_congr_left
    intro k _
    exact congrArg (fun g => aggRow g k) (regionGroup_filter_isSome _ k)
  · rw [hkeys df]
    exact List.nodup_dedup _
  · intro k
    rw [hkeys df, List.mem_dedup, List.mem_filterMap, List.mem_map]

/-- C3 counterexample: `compute_referendum_result_by_regions` does NOT
leave its argument unchanged — the in-place `astype(str)` write on the
`Town code` column (line 81) turns an integer town code into a string in
the caller's frame. -/
theorem C3_no_mutation_counterexample :
    compute_referendum_result_by_regions_after
        [{ dept_code := some "1", town_code := .vInt 42, registered := 1
           abstentions := 0, nulls := 0, choiceA := 1, choiceB := 0
           code_reg := some "84", name_reg := some "ARA"
           code_dep := some "1", name_dep := some "Ain" }]
      ≠ [{ dept_code := some "1", town_code := .vInt 42, registered := 1
           abstentions := 0, nulls := 0, choiceA := 1, choiceB := 0
           code_reg := some "84", name_reg := some "ARA"
           code_dep := some "1", name_dep := some "Ain" }] := by
  decide

/-- The in-place `Town code` write fixes the frame exactly when every town
code is already a string: `astype(str)` fixes string cells and changes
every int or NaN cell. -/
lemma townCast_eq_self_iff (df : List JoinedRow) :
    townCast df = df ↔ ∀ r ∈ df, ∃ s, r.town_code = CellVal.vStr s := by
  constructor
  · induction df with
    | nil =>
      intro _ r hr
      cases hr
    | cons a t ih =>
      intro h r hr
      rw [townCast, List.map_cons] at h
      obtain ⟨hhead, htail⟩ := (List.cons.injEq _ _ _ _).mp h
      rcases List.mem_cons.mp hr with rfl | hr'
      · have hfix : astypeStr r.town_code = r.town_code :=
          congrArg JoinedRow.town_code hhead
        cases hc : r.town_code with
        | vInt n =>
          rw [hc] at hfix
          exact absurd hfix (by simp [astypeStr])
        | vStr s => exact ⟨s, rfl⟩
        | vNull =>
          rw [hc] at hfix
          exact absurd hfix (by simp [astypeStr])
      · exact ih htail r hr'
  · intro h
    rw [townCast]
    induction df with
    | nil => rfl
    | cons r t ih =>
      rw [List.map_cons]
      have hr : astypeStr r.town_code = r.town_code := by
        obtain ⟨s, hs⟩ := h r (List.mem_cons_self r t)
        rw [hs]
        rfl
      rw [hr]
      have ht : t.map (fun r => { r with town_code := astypeStr r.town_code })
          = t := ih (fun x hx => h x (List.mem_cons_of_mem r hx))
      rw [ht]

/-- C3 amended: `merge_regions_and_departments`,
`merge_referendum_and_areas` and `plot_referendum_map` leave their
arguments unchanged; `compute_referendum_result_by_regions` mutates its
argument in place, but only the `Town code` column (replaced by its
`astype(str)` conversion): the row count and every other column are
preserved, and the argument is unchanged exactly when every town code is
already a string. -/
theorem C3_stage_frame_effects (df_reg : List RegionRow)
    (df_dep : List DepartmentRow) (referendum : List BallotRow)
    (areas : List AreaRow) (res : List ResultRow) (df : List JoinedRow) :
    merge_regions_and_departments_after df_reg df_dep = (df_reg, df_dep) ∧
    merge_referendum_and_areas_after referendum areas
        = (referendum, areas) ∧
    plot_referendum_map_after res = res ∧
    (compute_referendum_result_by_regions_after df).length = df.length ∧
    ((compute_referendum_result_by_regions_after df).map
        (fun r => { r with town_code := CellVal.vNull })
      = df.map (fun r => { r with town_code := CellVal.vNull })) ∧
    (compute_referendum_result_by_regions_after df = df ↔
      ∀ r ∈ df, ∃ s, r.town_code = CellVal.vStr s) := by
  refine ⟨rfl, rfl, rfl, ?_, ?_, ?_⟩
  · rw [compute_referendum_result_by_regions_after, townCast,
      List.length_map]
  · rw [compute_referendum_result_by_regions_after, townCast, List.map_map]
    rfl
  · exact townCast_eq_self_iff df

/-- Witness for the amended C3 at a concrete input: a frame whose town code
is already a string passes through `compute_referendum_result_by_regions`
unchanged. -/
theorem C3_stage_frame_effects_witness :
    compute_referendum_result_by_regions_after
        [{ dept_code := some "1", town_code := .vStr "004", registered := 1
           abstentions := 0, nulls := 0, choiceA := 1, choiceB := 0
           code_reg := some "84", name_reg := some "ARA"
           code_dep := some "1", name_dep := some "Ain" }]
      = [{ dept_code := some "1", town_code := .vStr "004", registered := 1
           abstentions := 0, nulls := 0, choiceA := 1, choiceB := 0
           code_reg := some "84", name_reg := some "ARA"
           code_dep := some "1", name_dep := some "Ain" }] :=
  (C3_stage_frame_effects [] [] [] [] [] _).2.2.2.2.2.mpr
    (fun r hr => ⟨"004", by rw [List.mem_singleton.mp hr]⟩)
